import Mathlib

/-
Shallow embedding of the arcade-loop core of `src/main.py`
(EdwardoSunny/Leann-Valentine-2025).

Conventions of the embedding:
* pygame surfaces/images are irrelevant to the verified logic and are
  modelled by `Nat` identifiers (`Frame`);
* `pygame.time.get_ticks()` values are `Nat` milliseconds; every tick value
  the program observes is at least the recorded start timestamps, since the
  clock is monotone and the stamps are taken from the same clock;
* Python `%` and `/` raise `ZeroDivisionError` on a zero divisor; where the
  source can actually reach a zero divisor this is modelled explicitly with
  `Except Unit` (see `pyMod`);
* Python float expressions of the form `int((a / b) * c)` on non-negative
  integer inputs are modelled by exact rational arithmetic, i.e. by the
  floor `a * c / b` in `Nat`;
* the randomness of spawn position and fall speed is modelled as oracle
  data carried by the spawn event / the constructed object.
-/

/-- Frame surfaces are opaque to the logic; identify them by number. -/
abbrev Frame := Nat

-- Constants from src/main.py lines 14-28.

def SCREEN_WIDTH : Int := 600

def SCREEN_HEIGHT : Int := 800

def PLAYER_SPEED : Int := 7

def WIN_SCORE : Nat := 25

/-- A pygame `Rect`: integer position and size. -/
structure Rect where
  x : Int
  y : Int
  w : Int
  h : Int
deriving DecidableEq

/-- pygame `Rect.colliderect`: strict overlap test (touching edges do not
collide). -/
def collide (a b : Rect) : Bool :=
  a.x < b.x + b.w && a.y < b.y + b.h && b.x < a.x + a.w && b.y < a.y + a.h

/-- pygame `Rect.collidepoint`: left/top edges inclusive, right/bottom
edges exclusive. -/
def collidepoint (r : Rect) (p : Int × Int) : Bool :=
  r.x ≤ p.1 && p.1 < r.x + r.w && r.y ≤ p.2 && p.2 < r.y + r.h

/-- pygame `Rect.inflate dx dy`: grow the total size by `dx`, `dy`, keeping
the center (position moves by half the growth). -/
def Rect.inflate (r : Rect) (dx dy : Int) : Rect :=
  { x := r.x - dx / 2, y := r.y - dy / 2, w := r.w + dx, h := r.h + dy }

/-- pygame `Rect.center`: `(x + w // 2, y + h // 2)`. -/
def Rect.center (r : Rect) : Int × Int :=
  (r.x + r.w / 2, r.y + r.h / 2)

/-- Python `a % b`, which raises `ZeroDivisionError` when `b = 0`. -/
def pyMod (a b : Nat) : Except Unit Nat :=
  if b = 0 then .error () else .ok (a % b)

/-- `AnimatedGif` (src/main.py lines 49-85).  The constructor appends a
frame and its duration in lockstep, so the state is a list of
`(frame, duration)` pairs plus the start timestamp.  `cumulative_durations`
and `total_duration` are running/total sums of the durations and are
recomputed here from the pairs. -/
structure AnimatedGif where
  entries : List (Frame × Nat)
  start_time : Nat
deriving DecidableEq

/-- `self.total_duration`: sum of all frame durations. -/
def AnimatedGif.total_duration (g : AnimatedGif) : Nat :=
  (g.entries.map Prod.snd).sum

/-- The scan `for i, cum_d in enumerate(self.cumulative_durations): if
elapsed < cum_d: return self.frames[i]` — `acc` is the cumulative duration
before the current entry. -/
def findFrameAux (elapsed : Nat) (acc : Nat) : List (Frame × Nat) → Option Frame
  | [] => none
  | (f, d) :: rest =>
    if elapsed < acc + d then some f else findFrameAux elapsed (acc + d) rest

/-- `AnimatedGif.get_current_frame` (src/main.py lines 87-95).  Returns
`.ok none` when there are no frames, `.error ()` when Python would raise
`ZeroDivisionError` in `(now - self.start_time) % self.total_duration`,
and otherwise the frame the scan selects (falling back to the last
frame). -/
def AnimatedGif.get_current_frame (g : AnimatedGif) (now : Nat) :
    Except Unit (Option Frame) :=
  match g.entries with
  | [] => .ok none
  | e :: es =>
    match pyMod (now - g.start_time) g.total_duration with
    | .error u => .error u
    | .ok elapsed =>
      match findFrameAux elapsed 0 (e :: es) with
      | some f => .ok (some f)
      | none => .ok (some ((e :: es).getLast (List.cons_ne_nil e es)).1)

/-- `FloatingText` (src/main.py lines 97-128): persistent state.  `alpha`
and `rect` are recomputed by `update` from the elapsed time, so they are
modelled as functions of `now` rather than stored. -/
structure FloatingText where
  text : String
  initial_position : Int × Int
  duration : Nat
  start_time : Nat
deriving DecidableEq

/-- `self.alpha` as set by `FloatingText.update(now)` (lines 113-117):
`0` once `elapsed ≥ duration`, else `int(255 * (1 - elapsed/duration))`,
i.e. the floor `255 * (duration - elapsed) / duration`. -/
def FloatingText.alphaAt (t : FloatingText) (now : Nat) : Nat :=
  let elapsed := now - t.start_time
  if t.duration ≤ elapsed then 0
  else 255 * (t.duration - elapsed) / t.duration

/-- `upward_offset = int((elapsed / duration) * total_upward_movement)`
(line 119), with `total_upward_movement = 30` (line 110); note the source
applies no clamp to this expression. -/
def FloatingText.offsetAt (t : FloatingText) (now : Nat) : Nat :=
  (now - t.start_time) * 30 / t.duration

/-- The center of `self.rect` as set by `update(now)` (lines 120-122):
`(x, y - upward_offset)`. -/
def FloatingText.centerAt (t : FloatingText) (now : Nat) : Int × Int :=
  (t.initial_position.1, t.initial_position.2 - (t.offsetAt now : Int))

/-- `FloatingText.is_dead` (lines 124-125), evaluated right after
`update(now)`: `self.alpha <= 0`. -/
def FloatingText.isDeadAt (t : FloatingText) (now : Nat) : Bool :=
  decide (t.alphaAt now ≤ 0)

/-- The floating text the missed-event handler constructs (src/main.py
line 251): `FloatingText("you hate me :(", small_font, pos, BLACK, 1000)`
at the current tick. -/
def missText (pos : Int × Int) (now : Nat) : FloatingText :=
  { text := "you hate me :(", initial_position := pos,
    duration := 1000, start_time := now }

/-- `Player.update(keys_pressed)` (src/main.py lines 148-156), restricted
to the rectangle: move by `PLAYER_SPEED` per held direction, then clamp the
left edge to `0` and then the right edge to `SCREEN_WIDTH` (setting
`rect.left`/`rect.right` moves `x`, keeping the width).  The image switch
in lines 157-160 is presentation-only and not modelled. -/
def playerUpdate (r : Rect) (left right : Bool) : Rect :=
  let x1 := if left then r.x - PLAYER_SPEED else r.x
  let x2 := if right then x1 + PLAYER_SPEED else x1
  let x3 := if x2 < 0 then 0 else x2
  let x4 := if x3 + r.w > SCREEN_WIDTH then SCREEN_WIDTH - r.w else x3
  { r with x := x4 }

/-- `FallingObject` (src/main.py lines 162-169): a 50x50 rectangle and the
fall speed sampled once at creation from `[3, 7]`. -/
structure FallingObject where
  rect : Rect
  speed : Nat
deriving DecidableEq

/-- `FallingObject.update` (src/main.py lines 171-176): advance `y` by
`speed`; if the top edge passes the bottom of the screen, post a
`MISSED_EVENT` carrying `rect.center` and `kill()` the sprite.  The result
is the moved object plus `some center` exactly when the object killed
itself this step. -/
def FallingObject.update (o : FallingObject) : FallingObject × Option (Int × Int) :=
  let r : Rect := { o.rect with y := o.rect.y + (o.speed : Int) }
  if SCREEN_HEIGHT < r.y then ({ o with rect := r }, some r.center)
  else ({ o with rect := r }, none)

/-- One falling object together with its group membership: `kill()` removes
the sprite from every group, after which `Group.update` never calls its
`update` again. -/
structure FallingLife where
  obj : FallingObject
  alive : Bool
deriving DecidableEq

/-- One `falling_objects.update()` pass as seen by a single sprite: a dead
(killed) sprite is no longer in the group and is not updated. -/
def fallingLifeStep (s : FallingLife) : FallingLife × Option (Int × Int) :=
  if s.alive then
    let u := s.obj.update
    ({ obj := u.1, alive := u.2.isNone }, u.2)
  else (s, none)

/-- `n` consecutive update passes over one falling object's lifetime,
collecting every `MISSED_EVENT` it posts. -/
def fallingLifeRun : FallingLife → Nat → FallingLife × List (Int × Int)
  | s, 0 => (s, [])
  | s, n + 1 =>
    let u := fallingLifeStep s
    let r := fallingLifeRun u.1 n
    (r.1, u.2.toList ++ r.2)

/-- `falling_objects.update()` over the whole group (insertion order):
moved survivors stay in the group, objects past the bottom post their
center and leave. -/
def fallingObjectsUpdate : List FallingObject → List FallingObject × List (Int × Int)
  | [] => ([], [])
  | o :: rest =>
    let u := o.update
    let r := fallingObjectsUpdate rest
    match u.2 with
    | some p => (r.1, p :: r.2)
    | none => (u.1 :: r.1, r.2)

/-- The soft-contact scan (src/main.py lines 266-269): does any active
object's rectangle, inflated by `(20, 20)`, collide with the player? -/
def softHit (pr : Rect) : List FallingObject → Bool
  | [] => false
  | o :: rest =>
    if collide pr (o.rect.inflate 20 20) then true else softHit pr rest

/-- How many times the scan of lines 266-269 calls
`player.trigger_eating()`: the loop `break`s right after the first
success. -/
def softTriggerCalls (pr : Rect) : List FallingObject → Nat
  | [] => 0
  | o :: rest =>
    if collide pr (o.rect.inflate 20 20) then 1 else softTriggerCalls pr rest

/-- `pygame.sprite.spritecollide(player, falling_objects, True)` followed
by `score += len(hits)` (lines 271-273): every object whose exact
rectangle collides with the player leaves the group; the count of removed
objects is the score increment. -/
def hardCapture (pr : Rect) (objs : List FallingObject) : List FallingObject × Nat :=
  (objs.filter (fun o => !(collide pr o.rect)),
   (objs.filter (fun o => collide pr o.rect)).length)

/-- The session state owned by `main`'s frame loop (src/main.py lines
216-232): the player rectangle and eating-window expiry, the
`falling_objects` group, the `floating_texts` list, `score`, `game_over`,
`final_screen`, and the `MISSED_EVENT`s posted this frame (they sit in
pygame's event queue and are drained on a later frame). -/
structure GameState where
  playerRect : Rect
  eatingEnd : Nat
  objs : List FallingObject
  texts : List FloatingText
  score : Nat
  gameOver : Bool
  finalScreen : Bool
  pendingMissed : List (Int × Int)
deriving DecidableEq

/-- The discrete events drained from the pygame queue each frame.  A
`spawnEvent` carries the `FallingObject` that `FallingObject(falling_sprite)`
would construct (its randomized position and speed are oracle data). -/
inductive Event where
  | quit
  | spawnEvent (obj : FallingObject)
  | missedEvent (pos : Int × Int)
  | mouseButtonDown (button : Nat) (pos : Int × Int)
  | keyDown (key : Nat)
deriving DecidableEq

/-- Whether an event has `event.type == pygame.KEYDOWN`. -/
def Event.isKeyDown : Event → Bool
  | .keyDown _ => true
  | _ => false

/-- The "Yes :)" button rect (src/main.py lines 230-232): size `150x50`
centered at `(SCREEN_WIDTH // 2, SCREEN_HEIGHT // 2 + 140) = (300, 540)`. -/
def buttonRect : Rect :=
  { x := 225, y := 515, w := 150, h := 50 }

/-- Handling of one drained event (src/main.py lines 238-259).  `none`
models `pygame.quit(); sys.exit()`.  During play a spawn event adds one
object and a missed event appends a `FloatingText` whose anchor `y` is
capped at `SCREEN_HEIGHT - 50`; on the ending screen a left click inside
`buttonRect` sets `final_screen`; once `final_screen` holds, any keydown
exits. -/
def processEvent (now : Nat) (s : GameState) (e : Event) : Option GameState :=
  match e with
  | .quit => none
  | _ =>
    let s1 :=
      if s.gameOver = false then
        match e with
        | .spawnEvent o => { s with objs := s.objs ++ [o] }
        | .missedEvent p =>
          let p1 := if SCREEN_HEIGHT - 50 < p.2 then (p.1, SCREEN_HEIGHT - 50) else p
          { s with texts := s.texts ++ [missText p1 now] }
        | _ => s
      else if s.finalScreen = false then
        match e with
        | .mouseButtonDown b p =>
          if b = 1 && collidepoint buttonRect p then { s with finalScreen := true }
          else s
        | _ => s
      else s
    if s1.finalScreen && e.isKeyDown then none else some s1

/-- Draining the event queue in order (src/main.py line 238). -/
def processEvents (now : Nat) : GameState → List Event → Option GameState
  | s, [] => some s
  | s, e :: es =>
    match processEvent now s e with
    | none => none
    | some s1 => processEvents now s1 es

/-- Everything the frame loop reads this frame besides the session state:
the drained events, the held direction keys, and the tick value. -/
structure FrameInput where
  events : List Event
  left : Bool
  right : Bool
  now : Nat
deriving DecidableEq

/-- The score increment of the playing step: how many objects the
(updated) player rectangle captures out of the moved group. -/
def frameCaught (s : GameState) (inp : FrameInput) : Nat :=
  (hardCapture (playerUpdate s.playerRect inp.left inp.right)
    (fallingObjectsUpdate s.objs).1).2

/-- The `if not game_over:` simulation block (src/main.py lines 262-278):
player movement, falling-object update (posting missed events), the
soft-contact scan (`trigger_eating` sets the eating window to
`now + 1000`, line 146), hard capture with scoring, and the win check that
sets `game_over` and clears both active sets. -/
def playingStep (s : GameState) (inp : FrameInput) : GameState :=
  let pr := playerUpdate s.playerRect inp.left inp.right
  let mv := fallingObjectsUpdate s.objs
  let eat := if softHit pr mv.1 then inp.now + 1000 else s.eatingEnd
  let hc := hardCapture pr mv.1
  let sc := s.score + hc.2
  if WIN_SCORE ≤ sc then
    { s with playerRect := pr, eatingEnd := eat, objs := [], texts := [],
             score := sc, gameOver := true,
             pendingMissed := s.pendingMissed ++ mv.2 }
  else
    { s with playerRect := pr, eatingEnd := eat, objs := hc.1,
             score := sc, pendingMissed := s.pendingMissed ++ mv.2 }

/-- One iteration of the `while True` loop (src/main.py lines 236-331):
drain the events, run the simulation block unless `game_over`, then update
every floating text and drop the dead ones (lines 280-283).  Rendering
(lines 285-331) reads but never writes this state.  `none` models process
exit. -/
def frame (s : GameState) (inp : FrameInput) : Option GameState :=
  match processEvents inp.now s inp.events with
  | none => none
  | some s0 =>
    let s1 := if s0.gameOver then s0 else playingStep s0 inp
    some { s1 with texts := s1.texts.filter (fun t => !(t.isDeadAt inp.now)) }

/-- Running the frame loop over a list of per-frame inputs. -/
def runGame : GameState → List FrameInput → Option GameState
  | s, [] => some s
  | s, i :: is =>
    match frame s i with
    | none => none
    | some s1 => runGame s1 is

/-- The session phase of the spec: `Playing` before the win check fires,
`Ended` on the ending screen, `Final` on the final screen. -/
inductive Phase where
  | Playing
  | Ended
  | Final
deriving DecidableEq

/-- The phase determined by the two flags `game_over` / `final_screen`. -/
def phase (s : GameState) : Phase :=
  if s.gameOver = false then .Playing
  else if s.finalScreen = false then .Ended
  else .Final

/-- The per-frame trigger count of the soft-contact scan is `1` when some
inflated rectangle collides (the `break` stops at the first one) and `0`
otherwise. -/
theorem softTriggerCalls_eq (pr : Rect) :
    ∀ objs : List FallingObject,
      softTriggerCalls pr objs = if softHit pr objs then 1 else 0
  | [] => by simp [softTriggerCalls, softHit]
  | o :: rest => by
    by_cases h : collide pr (o.rect.inflate 20 20) = true
    · simp [softTriggerCalls, softHit, h]
    · simp only [softTriggerCalls, softHit, h]
      simpa using softTriggerCalls_eq pr rest

/-- C3: a non-empty animation whose total duration is zero (every frame
duration `0`, as a GIF header may report) makes `get_current_frame`
evaluate `(now - start_time) % 0`, which raises `ZeroDivisionError` in
Python instead of returning the last frame; only the empty-frame-list case
returns "no frame" safely. -/
theorem gif_zero_total_divides_by_zero :
    AnimatedGif.total_duration ⟨[(7, 0)], 0⟩ = 0 ∧
    (⟨[(7, 0)], 0⟩ : AnimatedGif).entries ≠ [] ∧
    AnimatedGif.get_current_frame ⟨[(7, 0)], 0⟩ 123 = .error () ∧
    AnimatedGif.get_current_frame ⟨[], 0⟩ 123 = .ok none :=
  ⟨rfl, by simp, rfl, rfl⟩

/-- C9: for a non-empty animation with positive total duration, queried at
or after its start time, `get_current_frame` is periodic with period
`total_duration`; it is a pure function of `now` and the start time by
construction, so equal queries return equal frames. -/
theorem gif_periodicity (g : AnimatedGif) (now : Nat)
    (hne : g.entries ≠ []) (htot : g.total_duration ≠ 0)
    (hnow : g.start_time ≤ now) :
    g.get_current_frame now = g.get_current_frame (now + g.total_duration) := by
  obtain ⟨entries, st⟩ := g
  cases entries with
  | nil => exact absurd rfl hne
  | cons e es =>
    have he : (now + AnimatedGif.total_duration ⟨e :: es, st⟩ - st) %
        AnimatedGif.total_duration ⟨e :: es, st⟩ =
        (now - st) % AnimatedGif.total_duration ⟨e :: es, st⟩ := by
      rw [Nat.sub_add_comm hnow, Nat.add_mod_right]
    simp only [AnimatedGif.get_current_frame, pyMod, if_neg htot, he]

/-- A two-frame animation used to instantiate the periodicity theorem. -/
def gifEx : AnimatedGif := ⟨[(1, 100), (2, 50)], 0⟩

/-- Witness for C9 at a concrete animation and time. -/
theorem gif_periodicity_witness :
    gifEx.get_current_frame 5 = gifEx.get_current_frame (5 + gifEx.total_duration) :=
  gif_periodicity gifEx 5 (by decide) (by decide) (by decide)

/-- C6: whatever direction keys are held and wherever the 80-wide player
rectangle starts, after `Player.update` its left edge is at least `0` and
its right edge is at most `SCREEN_WIDTH`. -/
theorem player_update_clamped (r : Rect) (left right : Bool) (hw : r.w = 80) :
    0 ≤ (playerUpdate r left right).x ∧
    (playerUpdate r left right).x + (playerUpdate r left right).w ≤ SCREEN_WIDTH := by
  simp only [playerUpdate, SCREEN_WIDTH, PLAYER_SPEED, hw]
  split_ifs <;> simp_all

/-- Witness for C6 at a concrete off-screen start with only "right" held. -/
theorem player_update_clamped_witness :
    0 ≤ (playerUpdate ⟨595, 700, 80, 80⟩ false true).x ∧
    (playerUpdate ⟨595, 700, 80, 80⟩ false true).x +
      (playerUpdate ⟨595, 700, 80, 80⟩ false true).w ≤ SCREEN_WIDTH :=
  player_update_clamped ⟨595, 700, 80, 80⟩ false true rfl

/-- C4 counterexample: at Actor rect `(260,700,80,80)` and Item rect
`(335,705,50,50)` the un-inflated hard-capture test does NOT fail — the
rectangles overlap by 5 units horizontally, so `colliderect` succeeds. -/
theorem soft_contact_hard_also_collides :
    collide ⟨260, 700, 80, 80⟩ ⟨335, 705, 50, 50⟩ = true := by
  decide

/-- C4 (amended): the soft-contact scan calls `trigger_eating` at most
once per frame, exactly once when some active object's rectangle inflated
by `(20, 20)` collides with the player; at Actor rect `(260,700,80,80)`
and Item rect `(335,705,50,50)` the reaction is triggered — and there the
un-inflated hard-capture test also succeeds. -/
theorem soft_contact_single_trigger (pr : Rect) (objs : List FallingObject) :
    softTriggerCalls pr objs ≤ 1 ∧
    (softTriggerCalls pr objs = 1 ↔ softHit pr objs = true) ∧
    softHit ⟨260, 700, 80, 80⟩ [⟨⟨335, 705, 50, 50⟩, 3⟩] = true ∧
    collide ⟨260, 700, 80, 80⟩ ⟨335, 705, 50, 50⟩ = true := by
  refine ⟨?_, ?_, by decide, by decide⟩ <;> rw [softTriggerCalls_eq] <;>
    cases hs : softHit pr objs <;> simp [hs]

/-- C8: for a positive duration, the recomputed opacity is non-increasing
in `now`, is exactly `0` for every `now` at or past
`start_time + duration`, and `is_dead()` holds there as well. -/
theorem floating_text_fade (t : FloatingText) (n1 n2 : Nat)
    (hd : 0 < t.duration) (h12 : n1 ≤ n2) :
    t.alphaAt n2 ≤ t.alphaAt n1 ∧
    (t.start_time + t.duration ≤ n2 →
      t.alphaAt n2 = 0 ∧ t.isDeadAt n2 = true) := by
  constructor
  · have he : n1 - t.start_time ≤ n2 - t.start_time := Nat.sub_le_sub_right h12 _
    rcases le_or_lt t.duration (n2 - t.start_time) with h2 | h2
    · simp [FloatingText.alphaAt, h2]
    · simp only [FloatingText.alphaAt,
        if_neg (by omega : ¬ t.duration ≤ n2 - t.start_time),
        if_neg (by omega : ¬ t.duration ≤ n1 - t.start_time)]
      gcongr
  · intro h
    have hdead : t.duration ≤ n2 - t.start_time := by omega
    simp [FloatingText.alphaAt, FloatingText.isDeadAt, hdead]

/-- A floating text with the constructor arguments the game always uses
(`duration=1000`), anchored at `(300, 400)`, created at tick `0`. -/
def ftEx : FloatingText := ⟨"you hate me :(", (300, 400), 1000, 0⟩

/-- Witness for C8 at a concrete text and times. -/
theorem floating_text_fade_witness :
    ftEx.alphaAt 1500 ≤ ftEx.alphaAt 900 ∧
    (ftEx.start_time + ftEx.duration ≤ 1500 →
      ftEx.alphaAt 1500 = 0 ∧ ftEx.isDeadAt 1500 = true) :=
  floating_text_fade ftEx 900 1500 (by decide) (by decide)

/-- C5 counterexample: the upward offset is NOT clamped at expiry.  At
`now = 2000` (elapsed `2000 ≥ duration 1000`) the text anchored at
`y = 400` sits at `y = 340`, past the full 30-unit travel mark `370`. -/
theorem floating_text_overshoot :
    ftEx.duration ≤ 2000 - ftEx.start_time ∧
    ftEx.centerAt 2000 = (300, 340) ∧
    ftEx.initial_position.2 - 30 = 370 ∧ (340 : Int) < 370 := by
  decide

/-- C5 (amended): for every positive-duration text the vertical position
equals `anchor.y - floor((elapsed/duration) * 30)` for every `now`; the
offset is never clamped, so past expiry it keeps growing beyond the
30-unit travel (the text is already dead and removed then). -/
theorem floating_text_drift (t : FloatingText) (now : Nat)
    (hd : 0 < t.duration) :
    (t.centerAt now).1 = t.initial_position.1 ∧
    (t.centerAt now).2 = t.initial_position.2 -
      ⌊(((now - t.start_time : Nat) : ℚ) / (t.duration : ℚ)) * 30⌋ := by
  refine ⟨rfl, ?_⟩
  simp only [FloatingText.centerAt, FloatingText.offsetAt]
  congr 1
  rw [show (((now - t.start_time : Nat) : ℚ) / (t.duration : ℚ)) * 30 =
      ((((now - t.start_time) * 30 : Nat) : ℤ) : ℚ) / ((t.duration : ℕ) : ℚ) by
    push_cast; ring]
  rw [Rat.floor_intCast_div_natCast]
  exact Int.natCast_div ((now - t.start_time) * 30) t.duration

/-- Witness for C5 (amended) at a concrete text and time. -/
theorem floating_text_drift_witness :
    (ftEx.centerAt 500).1 = ftEx.initial_position.1 ∧
    (ftEx.centerAt 500).2 = ftEx.initial_position.2 -
      ⌊(((500 - ftEx.start_time : Nat) : ℚ) / (ftEx.duration : ℚ)) * 30⌋ :=
  floating_text_drift ftEx 500 (by decide)

/-- C10: during Playing, a processed missed signal creates a floating text
anchored at the signal's center position, except that an anchor `y` above
`SCREEN_HEIGHT - 50` (that is, `750`) is capped to exactly
`SCREEN_HEIGHT - 50`. -/
theorem missed_event_anchor_capped (s : GameState) (p : Int × Int) (now : Nat)
    (hgo : s.gameOver = false) :
    SCREEN_HEIGHT - 50 = (750 : Int) ∧
    ∃ s1, processEvent now s (.missedEvent p) = some s1 ∧
      (SCREEN_HEIGHT - 50 < p.2 →
        s1.texts = s.texts ++ [missText (p.1, SCREEN_HEIGHT - 50) now]) ∧
      (p.2 ≤ SCREEN_HEIGHT - 50 →
        s1.texts = s.texts ++ [missText p now]) := by
  refine ⟨by decide,
    { s with texts := s.texts ++
        [missText (if SCREEN_HEIGHT - 50 < p.2 then (p.1, SCREEN_HEIGHT - 50) else p) now] },
    ?_, ?_, ?_⟩
  · simp [processEvent, hgo, Event.isKeyDown]
  · intro hcap
    simp [if_pos hcap]
  · intro hcap
    simp [if_neg (not_lt.mpr hcap)]

/-- A Playing-phase session state used to instantiate theorems. -/
def gsPlaying : GameState :=
  { playerRect := ⟨260, 700, 80, 80⟩, eatingEnd := 0, objs := [], texts := [],
    score := 0, gameOver := false, finalScreen := false, pendingMissed := [] }

/-- Witness for C10: a missed signal at `(100, 900)` during Playing. -/
theorem missed_event_anchor_capped_witness :
    SCREEN_HEIGHT - 50 = (750 : Int) ∧
    ∃ s1, processEvent 7 gsPlaying (.missedEvent (100, 900)) = some s1 ∧
      (SCREEN_HEIGHT - 50 < ((100, 900) : Int × Int).2 →
        s1.texts = gsPlaying.texts ++
          [missText (((100, 900) : Int × Int).1, SCREEN_HEIGHT - 50) 7]) ∧
      (((100, 900) : Int × Int).2 ≤ SCREEN_HEIGHT - 50 →
        s1.texts = gsPlaying.texts ++ [missText ((100, 900) : Int × Int) 7]) :=
  missed_event_anchor_capped gsPlaying (100, 900) 7 rfl

/-- A killed falling object is out of every group, so further group update
passes neither move it nor let it post again. -/
theorem fallingLifeRun_dead (s : FallingLife) (h : s.alive = false) :
    ∀ n, fallingLifeRun s n = (s, [])
  | 0 => rfl
  | n + 1 => by
    simp [fallingLifeRun, fallingLifeStep, h, fallingLifeRun_dead s h n]

/-- C7: over any number of update passes of an in-group falling object
whose top edge has not yet passed the bottom, at most one missed signal is
posted; a signal has been posted by pass `n` exactly when the object's top
edge has passed `SCREEN_HEIGHT` by pass `n`, and the object has left the
groups exactly under the same condition — so the signal is posted exactly
once, in the first pass that crosses the bottom, together with the
removal. -/
theorem falling_missed_once (s : FallingLife) (n : Nat)
    (hal : s.alive = true) (hy : s.obj.rect.y ≤ SCREEN_HEIGHT) :
    (fallingLifeRun s n).2.length ≤ 1 ∧
    ((fallingLifeRun s n).2 ≠ [] ↔
      SCREEN_HEIGHT < s.obj.rect.y + (n : Int) * (s.obj.speed : Int)) ∧
    ((fallingLifeRun s n).1.alive = false ↔
      SCREEN_HEIGHT < s.obj.rect.y + (n : Int) * (s.obj.speed : Int)) := by
  induction n generalizing s with
  | zero =>
    exact ⟨by simp [fallingLifeRun], by simp [fallingLifeRun, hy],
      by simp [fallingLifeRun, hal, hy]⟩
  | succ n ih =>
    by_cases hc : SCREEN_HEIGHT < s.obj.rect.y + (s.obj.speed : Int)
    · have hrun : fallingLifeRun s (n + 1) =
          (⟨{ s.obj with rect := { s.obj.rect with y := s.obj.rect.y + (s.obj.speed : Int) } },
            false⟩,
           [({ s.obj.rect with y := s.obj.rect.y + (s.obj.speed : Int) } : Rect).center]) := by
        simp [fallingLifeRun, fallingLifeStep, hal, FallingObject.update, hc,
          fallingLifeRun_dead ⟨_, false⟩ rfl n]
      have hP : SCREEN_HEIGHT < s.obj.rect.y + ((n + 1 : Nat) : Int) * (s.obj.speed : Int) := by
        have h0 : (0 : Int) ≤ (n : Int) * (s.obj.speed : Int) :=
          mul_nonneg (Int.natCast_nonneg n) (Int.natCast_nonneg _)
        push_cast
        nlinarith
      rw [hrun]
      exact ⟨by simp, by simpa using hP, by simpa using hP⟩
    · have hy2 : s.obj.rect.y + (s.obj.speed : Int) ≤ SCREEN_HEIGHT := not_lt.mp hc
      have hrun : fallingLifeRun s (n + 1) =
          fallingLifeRun
            ⟨{ s.obj with rect := { s.obj.rect with y := s.obj.rect.y + (s.obj.speed : Int) } },
             true⟩ n := by
        simp [fallingLifeRun, fallingLifeStep, hal, FallingObject.update,
          not_lt.mp hc, hc]
      have ihs := ih
        ⟨{ s.obj with rect := { s.obj.rect with y := s.obj.rect.y + (s.obj.speed : Int) } },
         true⟩ rfl (by simpa using hy2)
      have harith :
          ({ s.obj with rect := { s.obj.rect with y := s.obj.rect.y + (s.obj.speed : Int) } }
            : FallingObject).rect.y +
            (n : Int) *
              (({ s.obj with rect := { s.obj.rect with
                  y := s.obj.rect.y + (s.obj.speed : Int) } } : FallingObject).speed : Int) =
          s.obj.rect.y + ((n + 1 : Nat) : Int) * (s.obj.speed : Int) := by
        push_cast
        ring
      rw [hrun]
      rw [harith] at ihs
      exact ihs

/-- A falling object two passes short of the bottom. -/
def flEx : FallingLife := ⟨⟨⟨100, 790, 50, 50⟩, 7⟩, true⟩

/-- Witness for C7 at a concrete object and pass count. -/
theorem falling_missed_once_witness :
    (fallingLifeRun flEx 3).2.length ≤ 1 ∧
    ((fallingLifeRun flEx 3).2 ≠ [] ↔
      SCREEN_HEIGHT < flEx.obj.rect.y + ((3 : Nat) : Int) * (flEx.obj.speed : Int)) ∧
    ((fallingLifeRun flEx 3).1.alive = false ↔
      SCREEN_HEIGHT < flEx.obj.rect.y + ((3 : Nat) : Int) * (flEx.obj.speed : Int)) :=
  falling_missed_once flEx 3 rfl (by decide)

/-- Event handling never writes `game_over` (the win check is the only
writer), and never clears `final_screen`. -/
theorem processEvent_flags (now : Nat) (s : GameState) (e : Event) (s1 : GameState)
    (h : processEvent now s e = some s1) :
    s1.gameOver = s.gameOver ∧ (s.finalScreen = true → s1.finalScreen = true) := by
  cases e <;>
    simp only [processEvent, Event.isKeyDown, Bool.and_true, Bool.and_false] at h <;>
    first
      | exact Option.noConfusion h
      | (split_ifs at h <;>
         first
           | exact Option.noConfusion h
           | (obtain rfl : _ = s1 := Option.some.inj h
              constructor <;> simp_all))

/-- Draining a whole event list never writes `game_over` and never clears
`final_screen`. -/
theorem processEvents_flags (now : Nat) :
    ∀ (es : List Event) (s s1 : GameState),
      processEvents now s es = some s1 →
      s1.gameOver = s.gameOver ∧ (s.finalScreen = true → s1.finalScreen = true)
  | [], s, s1, h => by
    obtain rfl : s = s1 := Option.some.inj h
    exact ⟨rfl, fun hf => hf⟩
  | e :: es, s, s1, h => by
    simp only [processEvents] at h
    cases hpe : processEvent now s e with
    | none => rw [hpe] at h; exact Option.noConfusion h
    | some s2 =>
      rw [hpe] at h
      have h1 := processEvent_flags now s e s2 hpe
      have h2 := processEvents_flags now es s2 s1 h
      exact ⟨h2.1.trans h1.1, fun hf => h2.2 (h1.2 hf)⟩

/-- The simulation block never writes `final_screen`. -/
theorem playingStep_finalScreen (s : GameState) (inp : FrameInput) :
    (playingStep s inp).finalScreen = s.finalScreen := by
  simp only [playingStep]
  split <;> rfl

/-- One frame never resets `game_over` and never clears `final_screen`. -/
theorem frame_flags (s : GameState) (inp : FrameInput) (s1 : GameState)
    (h : frame s inp = some s1) :
    (s.gameOver = true → s1.gameOver = true) ∧
    (s.finalScreen = true → s1.finalScreen = true) := by
  unfold frame at h
  cases hpe : processEvents inp.now s inp.events with
  | none => rw [hpe] at h; exact Option.noConfusion h
  | some s0 =>
    rw [hpe] at h
    obtain rfl : _ = s1 := Option.some.inj h
    have hp := processEvents_flags inp.now inp.events s s0 hpe
    by_cases hg : s0.gameOver
    · constructor
      · intro hx
        simp [hg]
      · intro hx
        simp [hg, hp.2 hx]
    · constructor
      · intro hx
        exact absurd (hp.1.trans hx) hg
      · intro hx
        simp [hg, playingStep_finalScreen, hp.2 hx]

/-- Over any run of frames, `game_over` and `final_screen` are monotone:
once set they stay set. -/
theorem runGame_flags :
    ∀ (inps : List FrameInput) (s s1 : GameState),
      runGame s inps = some s1 →
      (s.gameOver = true → s1.gameOver = true) ∧
      (s.finalScreen = true → s1.finalScreen = true)
  | [], s, s1, h => by
    obtain rfl : s = s1 := Option.some.inj h
    exact ⟨id, id⟩
  | i :: is, s, s1, h => by
    simp only [runGame] at h
    cases hf : frame s i with
    | none => rw [hf] at h; exact Option.noConfusion h
    | some s2 =>
      rw [hf] at h
      have h1 := frame_flags s i s2 hf
      have h2 := runGame_flags is s2 s1 h
      exact ⟨fun hx => h2.1 (h1.1 hx), fun hx => h2.2 (h1.2 hx)⟩

/-- C2: across any sequence of frames and input events that does not quit,
the phase never regresses: from `Ended` the session only stays `Ended` or
reaches `Final`, never `Playing` again; from `Final` it stays `Final`. -/
theorem phase_no_regression (s : GameState) (inps : List FrameInput) (s1 : GameState)
    (h : runGame s inps = some s1) :
    (phase s = .Ended → phase s1 = .Ended ∨ phase s1 = .Final) ∧
    (phase s = .Final → phase s1 = .Final) := by
  have hf := runGame_flags inps s s1 h
  constructor
  · intro hE
    have hgo : s.gameOver = true := by
      unfold phase at hE
      split_ifs at hE <;> simp_all
    have hgo1 : s1.gameOver = true := hf.1 hgo
    cases hfs : s1.finalScreen with
    | false => exact Or.inl (by simp [phase, hgo1, hfs])
    | true => exact Or.inr (by simp [phase, hgo1, hfs])
  · intro hF
    have hgf : s.gameOver = true ∧ s.finalScreen = true := by
      unfold phase at hF
      split_ifs at hF <;> simp_all
    simp [phase, hf.1 hgf.1, hf.2 hgf.2]

/-- An Ended-phase session state (as produced by the win check). -/
def gsEnded : GameState :=
  { playerRect := ⟨260, 700, 80, 80⟩, eatingEnd := 0, objs := [], texts := [],
    score := 25, gameOver := true, finalScreen := false, pendingMissed := [] }

/-- A frame input with no events and no keys held. -/
def inpIdle : FrameInput := { events := [], left := false, right := false, now := 0 }

/-- Witness for C2: one idle frame from an Ended state. -/
theorem phase_no_regression_witness :
    (phase gsEnded = .Ended → phase gsEnded = .Ended ∨ phase gsEnded = .Final) ∧
    (phase gsEnded = .Final → phase gsEnded = .Final) :=
  phase_no_regression gsEnded [inpIdle] gsEnded rfl

/-- C1: in any frame entered in the Playing phase, the score after hard
captures is the old score plus this frame's capture count; if it reaches
`WIN_SCORE` (25) the phase flips to Ended in this very frame with both the
active falling objects and the active floating texts cleared (the captures
having been added before the clear), and otherwise the phase stays Playing
— so the transition fires exactly in the first frame the threshold is
reached. -/
theorem win_transition (s : GameState) (inp : FrameInput) (s0 : GameState)
    (hgo : s.gameOver = false)
    (hev : processEvents inp.now s inp.events = some s0) :
    ∃ s1, frame s inp = some s1 ∧
      s1.score = s0.score + frameCaught s0 inp ∧
      (WIN_SCORE ≤ s0.score + frameCaught s0 inp →
        s1.gameOver = true ∧ s1.objs = [] ∧ s1.texts = []) ∧
      (s0.score + frameCaught s0 inp < WIN_SCORE → s1.gameOver = false) := by
  have hgo0 : s0.gameOver = false :=
    (processEvents_flags inp.now inp.events s s0 hev).1.trans hgo
  refine ⟨{ playingStep s0 inp with
      texts := (playingStep s0 inp).texts.filter (fun t => !(t.isDeadAt inp.now)) },
    ?_, ?_, ?_, ?_⟩
  · unfold frame
    rw [hev]
    simp [hgo0]
  · simp only [playingStep, frameCaught]
    split_ifs <;> simp
  · intro hwin
    simp only [frameCaught] at hwin
    simp only [playingStep, frameCaught]
    rw [if_pos hwin]
    simp
  · intro hlt
    simp only [frameCaught] at hlt
    simp only [playingStep, frameCaught]
    rw [if_neg (not_le.mpr hlt)]
    simpa using hgo0

/-- A Playing state at score 24 with one falling object about to be
captured by the player this frame. -/
def gsAlmostWon : GameState :=
  { playerRect := ⟨260, 700, 80, 80⟩, eatingEnd := 0,
    objs := [⟨⟨270, 650, 50, 50⟩, 5⟩], texts := [],
    score := 24, gameOver := false, finalScreen := false, pendingMissed := [] }

/-- Witness for C1: an idle frame from a score-24 state with a capture. -/
theorem win_transition_witness :
    ∃ s1, frame gsAlmostWon inpIdle = some s1 ∧
      s1.score = gsAlmostWon.score + frameCaught gsAlmostWon inpIdle ∧
      (WIN_SCORE ≤ gsAlmostWon.score + frameCaught gsAlmostWon inpIdle →
        s1.gameOver = true ∧ s1.objs = [] ∧ s1.texts = []) ∧
      (gsAlmostWon.score + frameCaught gsAlmostWon inpIdle < WIN_SCORE →
        s1.gameOver = false) :=
  win_transition gsAlmostWon inpIdle gsAlmostWon rfl rfl
